import Mathlib

/-!
# Verification of the Plasticity Blender add-on (gamedev fork)

Shallow embedding, in Lean 4, of the pure algorithmic cores of the add-on
(`__init__.py`, `handler.py`, `operators.py`, `ui.py`), together with proofs
of the specification claims about them.

Conventions used throughout:
* Python floats are modelled as exact rationals (`ℚ`); the floating-point
  claims verified here are about the formulas and branch structure, with the
  one irrational constant (`math.sqrt 0.5`, `math.pi`) kept abstract where it
  occurs.
* Python `None` is modelled with `Option`.
* Byte strings are modelled as `List Nat` (one entry per byte).
-/

namespace Plasticity

/-! ## `operators.is_fillet_group` (operators.py)

`max_neighbor_area` is the running maximum computed by the Python loop
`for neighbor_id in neighbors: if area > max_neighbor_area: ...`, started
at `0.0`. -/

def maxNeighborArea (groupAreas : Nat → ℚ) (neighbors : List Nat) : ℚ :=
  neighbors.foldl (fun acc n => if groupAreas n > acc then groupAreas n else acc) 0

def is_fillet_group (groupId : Nat) (groupAreas groupMaxAngles : Nat → ℚ)
    (adjacency : Nat → List Nat)
    (minCurvatureAngle maxAreaRatio : ℚ) (minAdjacentGroups : Nat) : Bool :=
  if groupMaxAngles groupId < minCurvatureAngle then false
  else if (adjacency groupId).length < minAdjacentGroups then false
  else
    let maxArea := maxNeighborArea groupAreas (adjacency groupId)
    if maxArea ≤ 0 then false
    else decide (groupAreas groupId ≤ maxArea * maxAreaRatio)

lemma maxNeighborArea_ge (groupAreas : Nat → ℚ) (neighbors : List Nat) (acc : ℚ) :
    acc ≤ neighbors.foldl (fun a n => if groupAreas n > a then groupAreas n else a) acc := by
  induction neighbors generalizing acc with
  | nil => simp
  | cons x xs ih =>
    simp only [List.foldl_cons]
    refine le_trans ?_ (ih _)
    split <;> simp_all [le_of_lt]

lemma maxNeighborArea_mem_le (groupAreas : Nat → ℚ) (neighbors : List Nat) (acc : ℚ)
    (n : Nat) (hn : n ∈ neighbors) :
    groupAreas n ≤ neighbors.foldl (fun a m => if groupAreas m > a then groupAreas m else a) acc := by
  induction neighbors generalizing acc with
  | nil => simp at hn
  | cons x xs ih =>
    rcases List.mem_cons.mp hn with h | h
    · subst h
      simp only [List.foldl_cons]
      refine le_trans ?_ (maxNeighborArea_ge groupAreas xs _)
      split <;> simp_all [le_of_not_lt]
    · exact ih _ h

/-- C7: `is_fillet_group` accepts a group iff its maximum curvature angle is
at least the threshold (inclusive), it has at least the required number of
adjacent groups, the largest neighbor area is strictly positive, and the
group's own area is at most `max_area_ratio` times the largest neighbor area
(inclusive); moreover the quantity compared really is an upper bound on every
neighbor's area. -/
theorem is_fillet_group_iff (groupId : Nat) (groupAreas groupMaxAngles : Nat → ℚ)
    (adjacency : Nat → List Nat)
    (minCurvatureAngle maxAreaRatio : ℚ) (minAdjacentGroups : Nat) :
    (is_fillet_group groupId groupAreas groupMaxAngles adjacency
        minCurvatureAngle maxAreaRatio minAdjacentGroups = true ↔
      (minCurvatureAngle ≤ groupMaxAngles groupId ∧
       minAdjacentGroups ≤ (adjacency groupId).length ∧
       0 < maxNeighborArea groupAreas (adjacency groupId) ∧
       groupAreas groupId ≤ maxNeighborArea groupAreas (adjacency groupId) * maxAreaRatio)) ∧
    ∀ n ∈ adjacency groupId, groupAreas n ≤ maxNeighborArea groupAreas (adjacency groupId) := by
  constructor
  · unfold is_fillet_group
    split
    · rename_i h
      simp only [Bool.false_eq_true, false_iff]
      intro hc
      exact absurd hc.1 (not_le.mpr h)
    · rename_i h1
      split
      · rename_i h2
        simp only [Bool.false_eq_true, false_iff]
        intro hc
        exact absurd hc.2.1 (not_le.mpr h2)
      · rename_i h2
        dsimp only
        split
        · rename_i h3
          simp only [Bool.false_eq_true, false_iff]
          intro hc
          exact absurd hc.2.2.1 (not_lt.mpr h3)
        · rename_i h3
          simp only [decide_eq_true_eq]
          constructor
          · intro hle
            exact ⟨le_of_not_lt h1, le_of_not_lt h2, lt_of_not_le h3, hle⟩
          · exact fun hc => hc.2.2.2
  · intro n hn
    exact maxNeighborArea_mem_le groupAreas (adjacency groupId) 0 n hn

/-! ## Density-derived tolerances (`__init__.py`)

`_density_to_plane_tolerance`, `_density_to_angle_tolerance`,
`_set_attr_if_changed` (with its `1e-9` epsilon on floats), and the two
update callbacks `update_density_preset` / `update_density_scene`. -/

def density_to_plane_tolerance (density : ℚ) : ℚ :=
  max 0.0001 (0.01 * (1 - density))

def density_to_angle_tolerance (density : ℚ) : ℚ :=
  max 0.10 (0.45 - 0.35 * density)

/-- `_set_attr_if_changed(obj, attr, value)` on a float attribute: the stored
value is left alone when it is already within `1e-9` of the target, and
replaced by the target otherwise.  We return the resulting stored value. -/
def set_attr_if_changed (current value : ℚ) : ℚ :=
  if |current - value| ≤ 1 / 1000000000 then current else value

structure RefacetPreset where
  density : ℚ
  tolerance : ℚ
  angle : ℚ
  Edge_chord_tolerance : ℚ
  Face_plane_tolerance : ℚ
  Edge_Angle_tolerance : ℚ
  Face_Angle_tolerance : ℚ
deriving DecidableEq

def update_density_preset (p : RefacetPreset) : RefacetPreset :=
  let density := max 0.01 (min 1.0 p.density)
  let planeTol := density_to_plane_tolerance density
  let angleTol := density_to_angle_tolerance density
  { p with
    tolerance := set_attr_if_changed p.tolerance planeTol
    angle := set_attr_if_changed p.angle angleTol
    Edge_chord_tolerance := set_attr_if_changed p.Edge_chord_tolerance planeTol
    Face_plane_tolerance := set_attr_if_changed p.Face_plane_tolerance planeTol
    Edge_Angle_tolerance := set_attr_if_changed p.Edge_Angle_tolerance angleTol
    Face_Angle_tolerance := set_attr_if_changed p.Face_Angle_tolerance angleTol }

structure SceneFacetProps where
  prop_plasticity_facet_density : ℚ
  prop_plasticity_facet_tolerance : ℚ
  prop_plasticity_facet_angle : ℚ
  prop_plasticity_curve_chord_tolerance : ℚ
  prop_plasticity_surface_plane_tolerance : ℚ
  prop_plasticity_curve_angle_tolerance : ℚ
  prop_plasticity_surface_angle_tolerance : ℚ
deriving DecidableEq

def update_density_scene (s : SceneFacetProps) : SceneFacetProps :=
  let density := max 0.01 (min 1.0 s.prop_plasticity_facet_density)
  let planeTol := density_to_plane_tolerance density
  let angleTol := density_to_angle_tolerance density
  { s with
    prop_plasticity_facet_tolerance :=
      set_attr_if_changed s.prop_plasticity_facet_tolerance planeTol
    prop_plasticity_facet_angle :=
      set_attr_if_changed s.prop_plasticity_facet_angle angleTol
    prop_plasticity_curve_chord_tolerance :=
      set_attr_if_changed s.prop_plasticity_curve_chord_tolerance planeTol
    prop_plasticity_surface_plane_tolerance :=
      set_attr_if_changed s.prop_plasticity_surface_plane_tolerance planeTol
    prop_plasticity_curve_angle_tolerance :=
      set_attr_if_changed s.prop_plasticity_curve_angle_tolerance angleTol
    prop_plasticity_surface_angle_tolerance :=
      set_attr_if_changed s.prop_plasticity_surface_angle_tolerance angleTol }

lemma set_attr_if_changed_close (current value : ℚ) :
    |set_attr_if_changed current value - value| ≤ 1 / 1000000000 := by
  unfold set_attr_if_changed
  split
  · assumption
  · simp

lemma set_attr_if_changed_far (current value : ℚ)
    (h : 1 / 1000000000 < |current - value|) :
    set_attr_if_changed current value = value := by
  unfold set_attr_if_changed
  rw [if_neg (not_le.mpr h)]

/-- C8: the density update clamps density into `[0.01, 1.0]`, derives
`plane_tolerance = max 0.0001 (0.01 * (1 - density))` and
`angle_tolerance = max 0.10 (0.45 - 0.35 * density)`, and applies the plane
tolerance to the base tolerance plus the edge-chord and face-plane advanced
tolerances and the angle tolerance to the base angle plus the edge-angle and
face-angle advanced tolerances (each target field ends within the `1e-9`
update epsilon of the derived value, and exactly equal to it whenever the
stored value was not already within epsilon); at the boundaries
`plane_tolerance 1 = 0.0001`, `angle_tolerance 1 = 0.10`,
`plane_tolerance 0.01 = 0.0099`, `angle_tolerance 0.01 = 0.4465`. -/
theorem density_update_spec (p : RefacetPreset) (s : SceneFacetProps) :
    (let d := max 0.01 (min 1.0 p.density)
     let pt := max 0.0001 (0.01 * (1 - d))
     let at_ := max 0.10 (0.45 - 0.35 * d)
     let u := update_density_preset p
     (0.01 ≤ d ∧ d ≤ 1) ∧
     (|u.tolerance - pt| ≤ 1 / 1000000000 ∧
      |u.Edge_chord_tolerance - pt| ≤ 1 / 1000000000 ∧
      |u.Face_plane_tolerance - pt| ≤ 1 / 1000000000 ∧
      |u.angle - at_| ≤ 1 / 1000000000 ∧
      |u.Edge_Angle_tolerance - at_| ≤ 1 / 1000000000 ∧
      |u.Face_Angle_tolerance - at_| ≤ 1 / 1000000000) ∧
     ((1 / 1000000000 < |p.tolerance - pt| → u.tolerance = pt) ∧
      (1 / 1000000000 < |p.Edge_chord_tolerance - pt| → u.Edge_chord_tolerance = pt) ∧
      (1 / 1000000000 < |p.Face_plane_tolerance - pt| → u.Face_plane_tolerance = pt) ∧
      (1 / 1000000000 < |p.angle - at_| → u.angle = at_) ∧
      (1 / 1000000000 < |p.Edge_Angle_tolerance - at_| → u.Edge_Angle_tolerance = at_) ∧
      (1 / 1000000000 < |p.Face_Angle_tolerance - at_| → u.Face_Angle_tolerance = at_))) ∧
    (let d := max 0.01 (min 1.0 s.prop_plasticity_facet_density)
     let pt := max 0.0001 (0.01 * (1 - d))
     let at_ := max 0.10 (0.45 - 0.35 * d)
     let u := update_density_scene s
     |u.prop_plasticity_facet_tolerance - pt| ≤ 1 / 1000000000 ∧
     |u.prop_plasticity_curve_chord_tolerance - pt| ≤ 1 / 1000000000 ∧
     |u.prop_plasticity_surface_plane_tolerance - pt| ≤ 1 / 1000000000 ∧
     |u.prop_plasticity_facet_angle - at_| ≤ 1 / 1000000000 ∧
     |u.prop_plasticity_curve_angle_tolerance - at_| ≤ 1 / 1000000000 ∧
     |u.prop_plasticity_surface_angle_tolerance - at_| ≤ 1 / 1000000000) ∧
    (density_to_plane_tolerance 1 = 0.0001 ∧
     density_to_angle_tolerance 1 = 0.10 ∧
     density_to_plane_tolerance 0.01 = 0.0099 ∧
     density_to_angle_tolerance 0.01 = 0.4465) := by
  refine ⟨⟨⟨le_max_left _ _, ?_⟩, ?_, ?_⟩, ?_, ?_⟩
  · exact max_le (by norm_num) (le_trans (min_le_left _ _) (by norm_num))
  · exact ⟨set_attr_if_changed_close _ _, set_attr_if_changed_close _ _,
      set_attr_if_changed_close _ _, set_attr_if_changed_close _ _,
      set_attr_if_changed_close _ _, set_attr_if_changed_close _ _⟩
  · exact ⟨fun h => set_attr_if_changed_far _ _ h, fun h => set_attr_if_changed_far _ _ h,
      fun h => set_attr_if_changed_far _ _ h, fun h => set_attr_if_changed_far _ _ h,
      fun h => set_attr_if_changed_far _ _ h, fun h => set_attr_if_changed_far _ _ h⟩
  · exact ⟨set_attr_if_changed_close _ _, set_attr_if_changed_close _ _,
      set_attr_if_changed_close _ _, set_attr_if_changed_close _ _,
      set_attr_if_changed_close _ _, set_attr_if_changed_close _ _⟩
  · refine ⟨?_, ?_, ?_, ?_⟩ <;> norm_num [density_to_plane_tolerance, density_to_angle_tolerance]

/-! ## `ui.RefacetButton.execute` parameter resolution (ui.py)

The operator resolves the refacet parameters from either the active preset or
the scene properties; both branches apply the same formulas to isomorphic
fields, so a single `RefacetSettings` record stands for whichever source is
active.  The sequential mutation of the Python code is mirrored with `let`
bindings in source order. -/

inductive FacetShapeType where
  | CUT
  | CONVEX
deriving DecidableEq

inductive TriOrNgon where
  | TRI
  | QUAD
  | NGON
deriving DecidableEq

structure RefacetSettings where
  tolerance : ℝ
  angle : ℝ
  facet_tri_or_ngon : TriOrNgon
  Face_plane_tolerance : ℝ
  Face_Angle_tolerance : ℝ
  Edge_chord_tolerance : ℝ
  Edge_Angle_tolerance : ℝ
  min_width_enabled : Bool
  min_width : ℝ
  max_width_enabled : Bool
  max_width : ℝ
  plane_angle : ℝ
  convex_ngons_only : Bool
  curve_max_length_enabled : Bool
  curve_max_length : ℝ
  relative_to_bbox : Bool
  match_topology : Bool

structure RefacetParams where
  curve_chord_tolerance : ℝ
  surface_plane_tolerance : ℝ
  curve_chord_angle : ℝ
  surface_plane_angle : ℝ
  max_sides : Nat
  plane_angle : ℝ
  shape : FacetShapeType
  min_width : ℝ
  max_width : ℝ
  curve_chord_max : ℝ
  relative_to_bbox : Bool
  match_topology : Bool

noncomputable def resolveRefacetParams (s : RefacetSettings) (showAdvanced : Bool) :
    RefacetParams :=
  let max_sides : Nat :=
    match s.facet_tri_or_ngon with
    | .TRI => 3
    | .QUAD => 4
    | .NGON => 128
  let plane_angle : ℝ := if max_sides > 4 then Real.pi / 4 else 0
  let shape : FacetShapeType := .CUT
  if showAdvanced then
    let surface_plane_tolerance := s.Face_plane_tolerance
    let surface_plane_angle := s.Face_Angle_tolerance
    let curve_chord_tolerance := s.Edge_chord_tolerance
    let curve_chord_angle := s.Edge_Angle_tolerance
    let min_width : ℝ := if s.min_width_enabled then s.min_width else 0
    let max_width : ℝ := if s.max_width_enabled then s.max_width else 0
    let plane_angle := s.plane_angle
    let max_width : ℝ :=
      if max_width > 0 ∧ min_width > 0 ∧ max_width < min_width then min_width else max_width
    let curve_chord_max : ℝ := if max_width > 0 then max_width * Real.sqrt 0.5 else 0
    let curve_chord_max : ℝ :=
      if s.curve_max_length_enabled then s.curve_max_length else curve_chord_max
    let shape : FacetShapeType :=
      if s.convex_ngons_only ∧ max_sides > 4 then .CONVEX else shape
    { curve_chord_tolerance := curve_chord_tolerance
      surface_plane_tolerance := surface_plane_tolerance
      curve_chord_angle := curve_chord_angle
      surface_plane_angle := surface_plane_angle
      max_sides := max_sides
      plane_angle := plane_angle
      shape := shape
      min_width := min_width
      max_width := max_width
      curve_chord_max := curve_chord_max
      relative_to_bbox := s.relative_to_bbox
      match_topology := s.match_topology }
  else
    { curve_chord_tolerance := s.tolerance
      surface_plane_tolerance := s.tolerance
      curve_chord_angle := s.angle
      surface_plane_angle := s.angle
      max_sides := max_sides
      plane_angle := plane_angle
      shape := shape
      min_width := 0
      max_width := 0
      curve_chord_max := 0
      relative_to_bbox := true
      match_topology := true }

/-- C5: the resolved refacet parameter set satisfies: `max_sides` is 3/4/128
for TRI/QUAD/NGON; `plane_angle` defaults to `π/4` when `max_sides > 4` and
`0` otherwise (overridden by the stored plane angle when the advanced section
is shown); `shape` defaults to `CUT`; and with the advanced section shown,
`max_width` is raised to `min_width` exactly when both are enabled (nonzero)
and `max_width < min_width`, `curve_chord_max` is `max_width * sqrt 0.5` when
the (possibly raised) `max_width` is positive — replaced entirely by the
explicit curve-max-length value when that toggle is enabled — and `shape` is
`CONVEX` iff convex-ngons-only is set and `max_sides > 4`. -/
theorem resolveRefacetParams_spec (s : RefacetSettings) (adv : Bool) :
    (resolveRefacetParams s adv).max_sides =
      (match s.facet_tri_or_ngon with
        | .TRI => 3
        | .QUAD => 4
        | .NGON => 128) ∧
    (resolveRefacetParams s adv).plane_angle =
      (if adv then s.plane_angle
       else if (resolveRefacetParams s adv).max_sides > 4 then Real.pi / 4 else 0) ∧
    (resolveRefacetParams s adv).shape =
      (if adv ∧ s.convex_ngons_only ∧ (resolveRefacetParams s adv).max_sides > 4
       then FacetShapeType.CONVEX else FacetShapeType.CUT) ∧
    (resolveRefacetParams s adv).max_width =
      (if adv then
        (let minW : ℝ := if s.min_width_enabled then s.min_width else 0
         let maxW : ℝ := if s.max_width_enabled then s.max_width else 0
         if maxW > 0 ∧ minW > 0 ∧ maxW < minW then minW else maxW)
       else 0) ∧
    (resolveRefacetParams s adv).curve_chord_max =
      (if adv then
        (if s.curve_max_length_enabled then s.curve_max_length
         else if (resolveRefacetParams s adv).max_width > 0 then
           (resolveRefacetParams s adv).max_width * Real.sqrt 0.5
         else 0)
       else 0) := by
  cases adv with
  | false => simp [resolveRefacetParams]
  | true => simp [resolveRefacetParams]

/-! ## `operators._auto_merge_seams_on_selection` (operators.py) -/

structure BMEdge where
  index : Nat
  seam : Bool
  linkFaces : List Nat
deriving DecidableEq

/-- One iteration of the edge loop: returns the (possibly updated) edge and
`some newSeam` when the seam flag was changed, `none` otherwise. -/
def processSeamEdge (respectExisting : Bool) (existingSeams : List Nat)
    (selected : Nat → Bool) (e : BMEdge) : BMEdge × Option Bool :=
  if e.linkFaces = [] then (e, none)
  else if respectExisting ∧ e.index ∈ existingSeams then (e, none)
  else
    let selCount := (e.linkFaces.filter selected).length
    if selCount = 0 then (e, none)
    else
      let newSeam : Bool :=
        if selCount = e.linkFaces.length then decide (e.linkFaces.length = 1) else true
      if e.seam ≠ newSeam then ({ e with seam := newSeam }, some newSeam) else (e, none)

/-- The `existing_seams` snapshot taken before the edge loop (empty when the
respect-existing-seams option is off, since it is then never consulted). -/
def existing_seams (edges : List BMEdge) (respectExisting : Bool) : List Nat :=
  if respectExisting then (edges.filter (fun e => e.seam)).map (fun e => e.index) else []

def auto_merge_seams_on_selection (edges : List BMEdge) (selectedFaces : List Nat)
    (selected : Nat → Bool) (respectExisting : Bool) :
    List BMEdge × List Nat × List Nat :=
  if selectedFaces = [] then (edges, [], [])
  else
    let processed :=
      edges.map (processSeamEdge respectExisting (existing_seams edges respectExisting) selected)
    (processed.map Prod.fst,
     (processed.filterMap (fun p => if p.2 = some true then some p.1.index else none)),
     (processed.filterMap (fun p => if p.2 = some false then some p.1.index else none)))

lemma filter_length_eq_iff_all {l : List Nat} {p : Nat → Bool} :
    (l.filter p).length = l.length ↔ ∀ f ∈ l, p f := by
  constructor
  · intro h
    exact List.filter_eq_self.mp ((List.filter_sublist l).eq_of_length h)
  · intro h
    rw [List.filter_eq_self.mpr h]

lemma seam_result_fst (e : BMEdge) (b : Bool) :
    (if e.seam ≠ b then ({ e with seam := b }, some b) else (e, none)).1.seam = b := by
  split
  · rfl
  · rename_i h
    exact not_ne_iff.mp h

/-- Per-edge characterization of the seam pass. -/
lemma processSeamEdge_seam (respectExisting : Bool) (existingSeams : List Nat)
    (selected : Nat → Bool) (e : BMEdge)
    (hne : e.linkFaces ≠ [])
    (hskip : ¬(respectExisting = true ∧ e.index ∈ existingSeams)) :
    ((∀ f ∈ e.linkFaces, selected f = true) →
        (processSeamEdge respectExisting existingSeams selected e).1.seam =
          decide (e.linkFaces.length = 1)) ∧
    (((∃ f ∈ e.linkFaces, selected f = true) ∧ (∃ f ∈ e.linkFaces, ¬selected f = true)) →
        (processSeamEdge respectExisting existingSeams selected e).1.seam = true) ∧
    ((∀ f ∈ e.linkFaces, ¬selected f = true) →
        (processSeamEdge respectExisting existingSeams selected e).1.seam = e.seam) := by
  unfold processSeamEdge
  rw [if_neg hne, if_neg hskip]
  dsimp only
  refine ⟨?_, ?_, ?_⟩
  · intro hall
    have hc : (e.linkFaces.filter selected).length = e.linkFaces.length :=
      filter_length_eq_iff_all.mpr hall
    have hc0 : ¬(e.linkFaces.filter selected).length = 0 := by
      rw [hc]
      intro h0
      exact hne (List.length_eq_zero.mp h0)
    rw [if_neg hc0, if_pos hc]
    exact seam_result_fst e _
  · rintro ⟨⟨f, hf, hsel⟩, ⟨g, hg, hgsel⟩⟩
    have hc0 : ¬(e.linkFaces.filter selected).length = 0 := by
      intro h0
      have := List.filter_eq_nil_iff.mp (List.length_eq_zero.mp h0)
      exact this f hf hsel
    have hcl : ¬(e.linkFaces.filter selected).length = e.linkFaces.length := by
      intro h
      exact hgsel (filter_length_eq_iff_all.mp h g hg)
    rw [if_neg hc0, if_neg hcl]
    exact seam_result_fst e true
  · intro hnone
    have hc0 : (e.linkFaces.filter selected).length = 0 := by
      rw [List.length_eq_zero, List.filter_eq_nil_iff]
      exact hnone
    rw [if_pos hc0]

lemma auto_merge_seams_length (edges : List BMEdge) (selectedFaces : List Nat)
    (selected : Nat → Bool) (respectExisting : Bool) :
    (auto_merge_seams_on_selection edges selectedFaces selected respectExisting).1.length =
      edges.length := by
  unfold auto_merge_seams_on_selection
  split
  · rfl
  · simp

/-- C4: during the auto-merge seam pass (with a nonempty selection), an edge
with linked faces that is not skipped by the respect-existing-seams option
ends with: seam cleared when all of its linked faces are selected and it has
two or more linked faces; seam set when all of its linked faces are selected
and it has exactly one linked face; seam set when some but not all of its
linked faces are selected; and its seam flag unchanged when none of its
linked faces is selected. -/
theorem auto_merge_seams_spec (edges : List BMEdge) (selectedFaces : List Nat)
    (selected : Nat → Bool) (respectExisting : Bool)
    (hsel : selectedFaces ≠ []) (i : Nat) (hi : i < edges.length)
    (hne : (edges.get ⟨i, hi⟩).linkFaces ≠ [])
    (hskip : ¬(respectExisting = true ∧
        (edges.get ⟨i, hi⟩).index ∈ existing_seams edges respectExisting)) :
    (((∀ f ∈ (edges.get ⟨i, hi⟩).linkFaces, selected f = true) ∧
        2 ≤ (edges.get ⟨i, hi⟩).linkFaces.length) →
      ((auto_merge_seams_on_selection edges selectedFaces selected respectExisting).1.get
        ⟨i, lt_of_lt_of_eq hi
          (auto_merge_seams_length edges selectedFaces selected respectExisting).symm⟩).seam
        = false) ∧
    (((∀ f ∈ (edges.get ⟨i, hi⟩).linkFaces, selected f = true) ∧
        (edges.get ⟨i, hi⟩).linkFaces.length = 1) →
      ((auto_merge_seams_on_selection edges selectedFaces selected respectExisting).1.get
        ⟨i, lt_of_lt_of_eq hi
          (auto_merge_seams_length edges selectedFaces selected respectExisting).symm⟩).seam
        = true) ∧
    (((∃ f ∈ (edges.get ⟨i, hi⟩).linkFaces, selected f = true) ∧
        (∃ f ∈ (edges.get ⟨i, hi⟩).linkFaces, ¬selected f = true)) →
      ((auto_merge_seams_on_selection edges selectedFaces selected respectExisting).1.get
        ⟨i, lt_of_lt_of_eq hi
          (auto_merge_seams_length edges selectedFaces selected respectExisting).symm⟩).seam
        = true) ∧
    ((∀ f ∈ (edges.get ⟨i, hi⟩).linkFaces, ¬selected f = true) →
      ((auto_merge_seams_on_selection edges selectedFaces selected respectExisting).1.get
        ⟨i, lt_of_lt_of_eq hi
          (auto_merge_seams_length edges selectedFaces selected respectExisting).symm⟩).seam
        = (edges.get ⟨i, hi⟩).seam) := by
  have hget : ∀ h', ((auto_merge_seams_on_selection edges selectedFaces selected
      respectExisting).1.get ⟨i, h'⟩) =
      (processSeamEdge respectExisting (existing_seams edges respectExisting) selected
        (edges.get ⟨i, hi⟩)).1 := by
    intro h'
    unfold auto_merge_seams_on_selection
    simp [List.get_eq_getElem, if_neg hsel]
  have hchar := processSeamEdge_seam respectExisting
    (existing_seams edges respectExisting) selected (edges.get ⟨i, hi⟩) hne hskip
  refine ⟨?_, ?_, ?_, ?_⟩
  · rintro ⟨hall, hlen⟩
    rw [hget, hchar.1 hall]
    exact decide_eq_false (by omega)
  · rintro ⟨hall, hlen⟩
    rw [hget, hchar.1 hall]
    exact decide_eq_true hlen
  · intro hmix
    rw [hget, hchar.2.1 hmix]
  · intro hnone
    rw [hget, hchar.2.2 hnone]

/-- Witness for C4 on a concrete strip: edge 0 is interior to the selection
(both faces selected, seam ends clear), edge 1 is an open boundary edge with
a single selected face (seam ends set), edge 2 straddles the selection
boundary (seam ends set), edge 3 touches no selected face (seam unchanged). -/
theorem auto_merge_seams_witness :
    (([(⟨0, true, [0, 1]⟩ : BMEdge), ⟨1, false, [1]⟩, ⟨2, false, [1, 2]⟩,
        ⟨3, true, [3]⟩] : List BMEdge) ≠ [] → True) ∧
    ((auto_merge_seams_on_selection
        [⟨0, true, [0, 1]⟩, ⟨1, false, [1]⟩, ⟨2, false, [1, 2]⟩, ⟨3, true, [3]⟩]
        [0, 1] (fun f => decide (f < 2)) false).1.get ⟨0, by decide⟩).seam = false := by
  refine ⟨fun _ => trivial, ?_⟩
  exact (auto_merge_seams_spec
      [⟨0, true, [0, 1]⟩, ⟨1, false, [1]⟩, ⟨2, false, [1, 2]⟩, ⟨3, true, [3]⟩]
      [0, 1] (fun f => decide (f < 2)) false (by decide) 0 (by decide)
      (by decide) (by decide)).1 ⟨by decide, by decide⟩

/-- Witness for C7: a group exactly at the curvature threshold and exactly at
the area-ratio bound is accepted. -/
theorem is_fillet_group_witness :
    is_fillet_group 0 (fun n => if n = 0 then 6 / 100 else 1) (fun _ => 5)
      (fun _ => [1, 2]) 5 (6 / 100) 2 = true := by
  refine (is_fillet_group_iff 0 (fun n => if n = 0 then 6 / 100 else 1) (fun _ => 5)
      (fun _ => [1, 2]) 5 (6 / 100) 2).1.mpr ⟨le_refl 5, by norm_num, ?_, ?_⟩
  · show (0 : ℚ) < maxNeighborArea _ [1, 2]
    norm_num [maxNeighborArea, List.foldl]
  · show ((fun n : Nat => if n = 0 then (6 : ℚ) / 100 else 1) 0) ≤
      maxNeighborArea _ [1, 2] * (6 / 100)
    norm_num [maxNeighborArea, List.foldl]

/-- Witness for C8: at density `0.01` with stale stored values, the preset
tolerance is driven to exactly `0.0099`. -/
theorem density_update_witness :
    (update_density_preset ⟨1 / 100, 5, 5, 5, 5, 5, 5⟩).tolerance = 99 / 10000 := by
  have h := (density_update_spec ⟨1 / 100, 5, 5, 5, 5, 5, 5⟩
      ⟨1, 0, 0, 0, 0, 0, 0⟩).1.2.2.1
    (lt_of_lt_of_le (by norm_num [max_def, min_def]) (le_abs_self _))
  rw [h]
  norm_num

/-! ## The Live Refacet timer (`operators._live_refacet_timer`)

The timer's decision state consists of the two module globals
`_LIVE_REFACET_LAST_SIGNATURE` and `_LIVE_REFACET_LAST_APPLIED_SIGNATURE`
(`_LIVE_REFACET_LAST_CHANGE_TIME` is written but never read by the decision
logic, so it is omitted).  A tick's environment is: whether live refacet is
enabled and the context is in object mode, the freshly built signature
(`none` when no eligible object is selected), the busy flag, the result of
`bpy.ops.wm.refacet.poll()`, and whether an invocation would return
`{'FINISHED'}`. -/

structure LiveRefacetState (Sig : Type) where
  lastSignature : Option Sig
  lastApplied : Option Sig
deriving DecidableEq

structure LiveRefacetTick (Sig : Type) where
  liveEnabled : Bool
  objectMode : Bool
  signature : Option Sig
  busy : Bool
  pollOk : Bool
  invokeFinished : Bool
deriving DecidableEq

/-- One timer tick: returns the new state and whether `bpy.ops.wm.refacet()`
was invoked during this tick. -/
def liveRefacetStep {Sig : Type} [DecidableEq Sig]
    (st : LiveRefacetState Sig) (t : LiveRefacetTick Sig) :
    LiveRefacetState Sig × Bool :=
  if ¬t.liveEnabled ∨ ¬t.objectMode then (⟨none, none⟩, false)
  else
    match t.signature with
    | none => (⟨none, none⟩, false)
    | some sig =>
      if some sig ≠ st.lastSignature then ({ st with lastSignature := some sig }, false)
      else if st.lastApplied = some sig then (st, false)
      else if t.busy then (st, false)
      else if ¬t.pollOk then (st, false)
      else (if t.invokeFinished then { st with lastApplied := some sig } else st, true)

/-- A whole tick sequence: final state and the number of refacet invocations. -/
def liveRefacetRun {Sig : Type} [DecidableEq Sig]
    (st : LiveRefacetState Sig) : List (LiveRefacetTick Sig) → LiveRefacetState Sig × Nat
  | [] => (st, 0)
  | t :: ts =>
    let step := liveRefacetStep st t
    let rest := liveRefacetRun step.1 ts
    (rest.1, (if step.2 then 1 else 0) + rest.2)

lemma liveRefacetStep_changed {Sig : Type} [DecidableEq Sig]
    (st : LiveRefacetState Sig) (t : LiveRefacetTick Sig)
    (h : t.signature ≠ st.lastSignature ∨ t.signature = none) :
    (liveRefacetStep st t).2 = false := by
  unfold liveRefacetStep
  split
  · rfl
  · cases hsig : t.signature with
    | none => rfl
    | some sig =>
      rcases h with h | h
      · rw [hsig] at h
        dsimp only
        rw [if_pos h]
      · rw [hsig] at h
        exact absurd h (by simp)

lemma liveRefacetStep_lastSignature {Sig : Type} [DecidableEq Sig]
    (st : LiveRefacetState Sig) (t : LiveRefacetTick Sig) :
    (liveRefacetStep st t).1.lastSignature = none ∨
    (liveRefacetStep st t).1.lastSignature = t.signature := by
  unfold liveRefacetStep
  split
  · exact Or.inl rfl
  · cases hsig : t.signature with
    | none => exact Or.inl rfl
    | some sig =>
      dsimp only
      split
      · exact Or.inr rfl
      · rename_i h
        right
        have h' := (not_ne_iff.mp h).symm
        split
        · exact h'
        · split
          · exact h'
          · split
            · exact h'
            · split <;> exact h'

lemma liveRefacetRun_never_fires_aux {Sig : Type} [DecidableEq Sig]
    (ticks : List (LiveRefacetTick Sig)) :
    ∀ st : LiveRefacetState Sig,
      (∀ t ∈ ticks.head?, t.signature = none ∨ t.signature ≠ st.lastSignature) →
      List.Chain' (fun a b => b.signature ≠ a.signature) ticks →
      (liveRefacetRun st ticks).2 = 0 := by
  induction ticks with
  | nil => intro st _ _; rfl
  | cons t ts ih =>
    intro st hhead hchain
    have hfire : (liveRefacetStep st t).2 = false := by
      apply liveRefacetStep_changed
      rcases hhead t rfl with h | h
      · exact Or.inr h
      · exact Or.inl h
    have hchain' := List.chain'_cons'.mp hchain
    have hrest : (liveRefacetRun (liveRefacetStep st t).1 ts).2 = 0 := by
      apply ih _ (fun u hu => ?_) hchain'.2
      rcases liveRefacetStep_lastSignature st t with h | h
      · cases hsig : u.signature with
        | none => exact Or.inl rfl
        | some s =>
          right
          rw [h]
          simp
      · right
        rw [h]
        exact hchain'.1 u hu
    simp [liveRefacetRun, hfire, hrest]

/-- C6: (a) a signature that differs from the last observed signature on
every tick (starting with no observed signature) never triggers a refacet
invocation; (b) once the same non-null signature is observed on two
consecutive ticks (the state's last observed signature equals the tick's
signature) and it differs from the last applied signature, with the busy
flag clear and the refacet poll passing, exactly one invocation fires on
that tick, and a `FINISHED` result records the observed signature as
applied; (c) once the applied signature equals the observed one, a further
stable tick does not re-fire. -/
theorem live_refacet_timer_spec {Sig : Type} [DecidableEq Sig] :
    (∀ (ticks : List (LiveRefacetTick Sig)) (ap : Option Sig),
      List.Chain' (fun a b => b.signature ≠ a.signature) ticks →
      (liveRefacetRun (⟨none, ap⟩ : LiveRefacetState Sig) ticks).2 = 0) ∧
    (∀ (st : LiveRefacetState Sig) (t : LiveRefacetTick Sig) (sig : Sig),
      t.liveEnabled = true → t.objectMode = true →
      t.signature = some sig → st.lastSignature = some sig →
      st.lastApplied ≠ some sig → t.busy = false → t.pollOk = true →
      (liveRefacetStep st t).2 = true ∧
      (t.invokeFinished = true → (liveRefacetStep st t).1.lastApplied = some sig)) ∧
    (∀ (st : LiveRefacetState Sig) (t : LiveRefacetTick Sig) (sig : Sig),
      t.signature = some sig → st.lastSignature = some sig →
      st.lastApplied = some sig →
      (liveRefacetStep st t).2 = false) := by
  refine ⟨?_, ?_, ?_⟩
  · intro ticks ap hchain
    apply liveRefacetRun_never_fires_aux
    · intro t _
      cases hsig : t.signature with
      | none => exact Or.inl rfl
      | some s =>
        right
        simp
    · exact hchain
  · intro st t sig hLive hMode hsig hlastSig happlied hbusy hpoll
    unfold liveRefacetStep
    rw [if_neg (by simp [hLive, hMode]), hsig]
    dsimp only
    rw [if_neg (not_ne_iff.mpr hlastSig.symm), if_neg happlied,
      if_neg (by simp [hbusy]), if_neg (by simp [hpoll])]
    refine ⟨rfl, fun hf => ?_⟩
    rw [if_pos hf]
  · intro st t sig hsig hlastSig happlied
    unfold liveRefacetStep
    split
    · rfl
    · rw [hsig]
      dsimp only
      rw [if_neg (not_ne_iff.mpr hlastSig.symm), if_pos happlied]

/-- Witness for C6: with signatures over `ℕ`, a two-tick run whose signature
changes every tick fires nothing; a stable tick over an unapplied signature
fires and records it; a stable tick over an applied signature does not fire. -/
theorem live_refacet_timer_witness :
    (liveRefacetRun (⟨none, none⟩ : LiveRefacetState Nat)
      [⟨true, true, some 1, false, true, true⟩,
       ⟨true, true, some 2, false, true, true⟩]).2 = 0 ∧
    (liveRefacetStep (⟨some 1, none⟩ : LiveRefacetState Nat)
      ⟨true, true, some 1, false, true, true⟩).2 = true ∧
    (liveRefacetStep (⟨some 1, none⟩ : LiveRefacetState Nat)
      ⟨true, true, some 1, false, true, true⟩).1.lastApplied = some 1 ∧
    (liveRefacetStep (⟨some 1, some 1⟩ : LiveRefacetState Nat)
      ⟨true, true, some 1, false, true, true⟩).2 = false := by
  have hb := (@live_refacet_timer_spec Nat _).2.1
    (⟨some 1, none⟩ : LiveRefacetState Nat)
    ⟨true, true, some 1, false, true, true⟩ 1
    rfl rfl rfl rfl (by decide) rfl rfl
  refine ⟨?_, hb.1, hb.2 rfl, ?_⟩
  · exact (@live_refacet_timer_spec Nat _).1
      [⟨true, true, some 1, false, true, true⟩,
       ⟨true, true, some 2, false, true, true⟩] none
      (by simp [List.chain'_pair])
  · exact (@live_refacet_timer_spec Nat _).2.2
      (⟨some 1, some 1⟩ : LiveRefacetState Nat)
      ⟨true, true, some 1, false, true, true⟩ 1 rfl rfl rfl

/-! ## `operators._checker_enum_id` (operators.py)

Filenames are modelled as their byte lists (`List Nat`, one entry per byte;
the add-on's checker filenames are ASCII, for which Python's per-character
`upper`/regex sanitization coincides with the per-byte model used here).
`crc32` is the standard reflected CRC-32 computed by `zlib.crc32`:
initial value `0xFFFFFFFF`, per byte xor-in then eight shift/xor steps with
polynomial `0xEDB88320`, final xor with `0xFFFFFFFF`. -/

def checkerEnumIdMax : Nat := 63

def crc32Step (c : Nat) : Nat :=
  if c % 2 = 1 then Nat.xor (c / 2) 0xEDB88320 else c / 2

def crc32Byte (crc b : Nat) : Nat :=
  crc32Step^[8] (Nat.xor crc (b % 256))

def crc32 (data : List Nat) : Nat :=
  Nat.xor (data.foldl crc32Byte 0xFFFFFFFF) 0xFFFFFFFF

def hexDigit (v : Nat) : Nat :=
  if v < 10 then 48 + v else 55 + v

def hexVal (d : Nat) : Nat :=
  if d < 58 then d - 48 else d - 55

/-- The nibbles of `n`, most significant first, zero-padded to width `k`
(the `"%08X"` format with `k = 8`). -/
def hexN (k n : Nat) : List Nat :=
  (List.range k).map (fun i => n / 16 ^ (k - 1 - i) % 16)

def unhex (l : List Nat) : Nat :=
  l.foldl (fun a d => a * 16 + d) 0

/-- `os.path.splitext(filename)[0]` for a bare filename (no path
separator): drop from the last dot on, unless every character before the
last dot is itself a dot. -/
def splitextBase (f : List Nat) : List Nat :=
  match (f.reverse.findIdx? (fun b => b = 46)).map (fun i => f.length - 1 - i) with
  | none => f
  | some d => if (f.take d).any (fun b => b ≠ 46) then f.take d else f

def upperByte (b : Nat) : Nat :=
  if 97 ≤ b ∧ b ≤ 122 then b - 32 else b

def isSafeByte (b : Nat) : Bool :=
  decide ((65 ≤ b ∧ b ≤ 90) ∨ (97 ≤ b ∧ b ≤ 122) ∨ (48 ≤ b ∧ b ≤ 57) ∨ b = 95)

/-- `re.sub(r'[^A-Za-z0-9_]', '_', base.upper())`. -/
def sanitize (f : List Nat) : List Nat :=
  (splitextBase f).map (fun b => if isSafeByte (upperByte b) then upperByte b else 95)

def isDigitByte (b : Nat) : Bool :=
  decide (48 ≤ b ∧ b ≤ 57)

/-- `safe`, with the `IMG_` prefix applied when empty or starting with a
digit (`IMG_` is bytes `[73, 77, 71, 95]`). -/
def safeName (f : List Nat) : List Nat :=
  match sanitize f with
  | [] => [73, 77, 71, 95]
  | b :: rest => if isDigitByte b then [73, 77, 71, 95] ++ (b :: rest) else b :: rest

/-- The sanitized portion that actually appears in the identifier, after the
length budget `_CHECKER_ENUM_ID_MAX - len("CHK_") - len(suffix)` is applied
(`IMG` is bytes `[73, 77, 71]`). -/
def sanitizedPart (f : List Nat) : List Nat :=
  let safe := safeName f
  let maxSafeLen : Int := (checkerEnumIdMax : Int) - 4 - 9
  if maxSafeLen ≤ 0 then [73, 77, 71]
  else if (safe.length : Int) > maxSafeLen then safe.take maxSafeLen.toNat
  else safe

/-- `_checker_enum_id(filename)`: `CHK_` (bytes `[67, 72, 75, 95]`) ++
sanitized-part ++ `_XXXXXXXX` (underscore then eight uppercase hex digits of
the CRC-32 of the original filename). -/
def checker_enum_id (f : List Nat) : List Nat :=
  [67, 72, 75, 95] ++ sanitizedPart f ++ (95 :: (hexN 8 (crc32 f)).map hexDigit)

lemma crc32Step_lt (c : Nat) (h : c < 2 ^ 32) : crc32Step c < 2 ^ 32 := by
  unfold crc32Step
  split
  · exact Nat.xor_lt_two_pow (by omega) (by norm_num)
  · omega

lemma crc32Byte_lt (crc b : Nat) (h : crc < 2 ^ 32) : crc32Byte crc b < 2 ^ 32 := by
  unfold crc32Byte
  have hstart : Nat.xor crc (b % 256) < 2 ^ 32 :=
    Nat.xor_lt_two_pow h (by have := Nat.mod_lt b (show 0 < 256 by norm_num); omega)
  have : ∀ k x, x < 2 ^ 32 → crc32Step^[k] x < 2 ^ 32 := by
    intro k
    induction k with
    | zero => intro x hx; simpa using hx
    | succ k ih =>
      intro x hx
      rw [Function.iterate_succ_apply]
      exact ih _ (crc32Step_lt x hx)
  exact this 8 _ hstart

lemma crc32_lt (data : List Nat) : crc32 data < 2 ^ 32 := by
  unfold crc32
  have : data.foldl crc32Byte 0xFFFFFFFF < 2 ^ 32 := by
    have : ∀ (l : List Nat) (a : Nat), a < 2 ^ 32 → l.foldl crc32Byte a < 2 ^ 32 := by
      intro l
      induction l with
      | nil => intro a ha; simpa using ha
      | cons x xs ih =>
        intro a ha
        exact ih _ (crc32Byte_lt a x ha)
    exact this data _ (by norm_num)
  exact Nat.xor_lt_two_pow this (by norm_num)

lemma hexVal_hexDigit (v : Nat) (hv : v < 16) : hexVal (hexDigit v) = v := by
  unfold hexVal hexDigit
  split <;> split <;> omega

lemma unhex_hexN (k : Nat) : ∀ n, n < 16 ^ k → unhex (hexN k n) = n := by
  induction k with
  | zero =>
    intro n hn
    interval_cases n
    rfl
  | succ k ih =>
    intro n hn
    have hsplit : hexN (k + 1) n = hexN k (n / 16) ++ [n % 16] := by
      unfold hexN
      rw [List.range_succ, List.map_append]
      congr 1
      · apply List.map_congr_left
        intro i hi
        have hik : i < k := List.mem_range.mp hi
        have hexp : (16 : Nat) * 16 ^ (k - 1 - i) = 16 ^ (k + 1 - 1 - i) := by
          rw [← pow_succ']
          congr 1
          omega
        rw [Nat.div_div_eq_div_mul, hexp]
      · simp
    rw [hsplit]
    unfold unhex
    rw [List.foldl_append]
    have hdiv : n / 16 < 16 ^ k := by
      rw [pow_succ] at hn
      omega
    have := ih (n / 16) hdiv
    unfold unhex at this
    simp only [List.foldl_cons, List.foldl_nil]
    rw [this]
    omega

lemma hexN_length (k n : Nat) : (hexN k n).length = k := by
  simp [hexN]

lemma hexN_mem_lt (k n : Nat) : ∀ v ∈ hexN k n, v < 16 := by
  intro v hv
  unfold hexN at hv
  rcases List.mem_map.mp hv with ⟨i, _, rfl⟩
  exact Nat.mod_lt _ (by norm_num)

lemma hexN_map_inj {c1 c2 : Nat} (h1 : c1 < 2 ^ 32) (h2 : c2 < 2 ^ 32)
    (h : (hexN 8 c1).map hexDigit = (hexN 8 c2).map hexDigit) : c1 = c2 := by
  have hv := congrArg (List.map hexVal) h
  rw [List.map_map, List.map_map] at hv
  have hv1 : (hexN 8 c1).map (hexVal ∘ hexDigit) = (hexN 8 c1).map id :=
    List.map_congr_left (fun v hvmem => hexVal_hexDigit v (hexN_mem_lt 8 c1 v hvmem))
  have hv2 : (hexN 8 c2).map (hexVal ∘ hexDigit) = (hexN 8 c2).map id :=
    List.map_congr_left (fun v hvmem => hexVal_hexDigit v (hexN_mem_lt 8 c2 v hvmem))
  rw [hv1, hv2, List.map_id, List.map_id] at hv
  have b1 : c1 < 16 ^ 8 := by norm_num at h1 ⊢; omega
  have b2 : c2 < 16 ^ 8 := by norm_num at h2 ⊢; omega
  calc c1 = unhex (hexN 8 c1) := (unhex_hexN 8 c1 b1).symm
    _ = unhex (hexN 8 c2) := by rw [hv]
    _ = c2 := unhex_hexN 8 c2 b2

lemma sanitizedPart_length_le (f : List Nat) : (sanitizedPart f).length ≤ 50 := by
  unfold sanitizedPart
  simp only []
  split
  · simp
  · split
    · rename_i hgt
      refine le_trans (List.length_take_le _ _) ?_
      norm_num [checkerEnumIdMax]
    · rename_i hle
      simp only [checkerEnumIdMax] at hle
      omega

/-- C9 counterexample: the filenames `'A#=%[]=$@%%'` and `'A[,$;(-(@@ '` are
distinct, sanitize to the same prefix, and collide on CRC-32, so
`_checker_enum_id` maps them to the *same* identifier — refuting the claim
that equal sanitized prefixes always yield distinct identifiers. -/
theorem checker_enum_id_counterexample :
    ([65, 35, 61, 37, 91, 93, 61, 36, 64, 37, 37] : List Nat) ≠
      [65, 91, 44, 36, 59, 40, 45, 40, 64, 64, 32] ∧
    sanitizedPart [65, 35, 61, 37, 91, 93, 61, 36, 64, 37, 37] =
      sanitizedPart [65, 91, 44, 36, 59, 40, 45, 40, 64, 64, 32] ∧
    crc32 [65, 35, 61, 37, 91, 93, 61, 36, 64, 37, 37] =
      crc32 [65, 91, 44, 36, 59, 40, 45, 40, 64, 64, 32] ∧
    checker_enum_id [65, 35, 61, 37, 91, 93, 61, 36, 64, 37, 37] =
      checker_enum_id [65, 91, 44, 36, 59, 40, 45, 40, 64, 64, 32] := by
  set_option maxRecDepth 100000 in
  exact ⟨by decide, by decide, by decide, by decide⟩

/-- C9 (amended): `_checker_enum_id` is deterministic, every identifier it
produces has length at most 63 (`CHK_` + sanitized-up-to-budget + `_` +
8 hex digits), and two filenames with equal sanitized prefixes receive
distinct identifiers *whenever their CRC-32 checksums differ* (CRC-32
collisions, which exist, defeat the distinctness). -/
theorem checker_enum_id_spec :
    (∀ f : List Nat, (checker_enum_id f).length ≤ 63) ∧
    (∀ f1 f2 : List Nat, f1 = f2 → checker_enum_id f1 = checker_enum_id f2) ∧
    (∀ f1 f2 : List Nat, sanitizedPart f1 = sanitizedPart f2 →
      crc32 f1 ≠ crc32 f2 → checker_enum_id f1 ≠ checker_enum_id f2) := by
  refine ⟨?_, ?_, ?_⟩
  · intro f
    have h1 := sanitizedPart_length_le f
    have h2 := hexN_length 8 (crc32 f)
    simp only [checker_enum_id, List.length_append, List.length_cons, List.length_map]
    rw [h2]
    simp only [List.length_cons, List.length_nil]
    omega
  · intro f1 f2 h
    rw [h]
  · intro f1 f2 hpre hcrc heq
    unfold checker_enum_id at heq
    rw [hpre] at heq
    simp only [List.append_assoc] at heq
    have h1 : sanitizedPart f2 ++ (95 :: (hexN 8 (crc32 f1)).map hexDigit) =
        sanitizedPart f2 ++ (95 :: (hexN 8 (crc32 f2)).map hexDigit) :=
      List.append_cancel_left heq
    have hsuf : (95 :: (hexN 8 (crc32 f1)).map hexDigit) =
        95 :: (hexN 8 (crc32 f2)).map hexDigit :=
      List.append_cancel_left h1
    have hd : (hexN 8 (crc32 f1)).map hexDigit = (hexN 8 (crc32 f2)).map hexDigit := by
      injection hsuf
    exact hcrc (hexN_map_inj (crc32_lt f1) (crc32_lt f2) hd)

/-- Witness for C9: `'A!'` and `'A?'` sanitize to the same prefix but have
different CRC-32 checksums, so their identifiers differ. -/
theorem checker_enum_id_witness :
    checker_enum_id [65, 33] ≠ checker_enum_id [65, 63] :=
  checker_enum_id_spec.2.2 [65, 33] [65, 63] (by decide) (by decide)

/-! ## `SceneHandler.on_list` (handler.py)

The handler's per-file lookup tables (`self.files[filename]`) keep one dict
per uniqueness scope; only the key sets matter for the reconciliation
claims, so they are modelled as `Finset ℤ`.  `ObjectType` carries the wire
values 0/1/2/5/6. -/

inductive PlasticityType where
  | SOLID
  | SHEET
  | WIRE
  | GROUP
  | EMPTY
deriving DecidableEq

structure ListNode where
  id : Int
  type : PlasticityType
deriving DecidableEq

structure HandlerTables where
  items : Finset Int
  groups : Finset Int
deriving DecidableEq

/-- The identity sets gathered from the `add` and `update` arrays
(`all_items` / `all_groups` in `on_list`). -/
def all_item_ids (addItems updateItems : List ListNode) : Finset Int :=
  ((addItems ++ updateItems).filterMap
    (fun n => if n.type ≠ .GROUP then some n.id else none)).toFinset

def all_group_ids (addItems updateItems : List ListNode) : Finset Int :=
  ((addItems ++ updateItems).filterMap
    (fun n => if n.type = .GROUP then some n.id else none)).toFinset

/-- Effect of `__replace_objects` on the lookup tables: SOLID/SHEET nodes are
created (or updated in place) in the ITEM table, GROUP nodes with positive id
in the GROUP table; other node types touch no table. -/
def replace_objects_tables (t : HandlerTables) (nodes : List ListNode) : HandlerTables :=
  { items := t.items ∪ (nodes.filterMap
      (fun n => if n.type = .SOLID ∨ n.type = .SHEET then some n.id else none)).toFinset
    groups := t.groups ∪ (nodes.filterMap
      (fun n => if n.type = .GROUP ∧ n.id > 0 then some n.id else none)).toFinset }

structure ListOutcome where
  tables : HandlerTables
  processed : List ListNode
  deletedItems : Finset Int
  deletedGroups : Finset Int

/-- `SceneHandler.on_list`: an optional identity filter restricts which
non-GROUP nodes are handed to `__replace_objects`; with no (or an empty)
filter, both namespaces are fully reconciled (anything missing from the
response is deleted), while with a filter only filtered identities missing
from the response are deleted.  Deletion iterates after the replace calls,
so freshly added identities survive; popping an id absent from a table is a
no-op, hence `deletedItems` records only ids actually present. -/
def on_list (t : HandlerTables) (filterIds : Option (List Int))
    (addItems updateItems : List ListNode) : ListOutcome :=
  let selectedOnly := match filterIds with
    | none => false
    | some l => decide (l ≠ [])
  let F : List Int := filterIds.getD []
  let allItems := all_item_ids addItems updateItems
  let allGroups := all_group_ids addItems updateItems
  let processed :=
    if selectedOnly then
      (addItems.filter (fun n => n.type = .GROUP ∨ n.id ∈ F)) ++
      (updateItems.filter (fun n => n.type = .GROUP ∨ n.id ∈ F))
    else addItems ++ updateItems
  let t1 := replace_objects_tables t processed
  if selectedOnly then
    let popped := (F.filter (fun i => i ∉ allItems)).toFinset
    { tables := { items := t1.items \ popped, groups := t1.groups }
      processed := processed
      deletedItems := t1.items ∩ popped
      deletedGroups := ∅ }
  else
    { tables := { items := t1.items.filter (fun i => i ∈ allItems)
                  groups := t1.groups.filter (fun g => g ∈ allGroups) }
      processed := processed
      deletedItems := t1.items.filter (fun i => i ∉ allItems)
      deletedGroups := t1.groups.filter (fun g => g ∉ allGroups) }

lemma on_list_none_eq (t : HandlerTables) (addItems updateItems : List ListNode) :
    on_list t none addItems updateItems =
      { tables := { items := (replace_objects_tables t (addItems ++ updateItems)).items.filter
                      (fun i => i ∈ all_item_ids addItems updateItems)
                    groups := (replace_objects_tables t (addItems ++ updateItems)).groups.filter
                      (fun g => g ∈ all_group_ids addItems updateItems) }
        processed := addItems ++ updateItems
        deletedItems := (replace_objects_tables t (addItems ++ updateItems)).items.filter
          (fun i => i ∉ all_item_ids addItems updateItems)
        deletedGroups := (replace_objects_tables t (addItems ++ updateItems)).groups.filter
          (fun g => g ∉ all_group_ids addItems updateItems) } := by
  unfold on_list
  simp

lemma on_list_some_eq (t : HandlerTables) (F : List Int) (hF : F ≠ [])
    (addItems updateItems : List ListNode) :
    on_list t (some F) addItems updateItems =
      { tables := { items := (replace_objects_tables t
                      ((addItems.filter (fun n => n.type = .GROUP ∨ n.id ∈ F)) ++
                       (updateItems.filter (fun n => n.type = .GROUP ∨ n.id ∈ F)))).items \
                      (F.filter (fun i => i ∉ all_item_ids addItems updateItems)).toFinset
                    groups := (replace_objects_tables t
                      ((addItems.filter (fun n => n.type = .GROUP ∨ n.id ∈ F)) ++
                       (updateItems.filter (fun n => n.type = .GROUP ∨ n.id ∈ F)))).groups }
        processed := (addItems.filter (fun n => n.type = .GROUP ∨ n.id ∈ F)) ++
          (updateItems.filter (fun n => n.type = .GROUP ∨ n.id ∈ F))
        deletedItems := (replace_objects_tables t
            ((addItems.filter (fun n => n.type = .GROUP ∨ n.id ∈ F)) ++
             (updateItems.filter (fun n => n.type = .GROUP ∨ n.id ∈ F)))).items ∩
          (F.filter (fun i => i ∉ all_item_ids addItems updateItems)).toFinset
        deletedGroups := ∅ } := by
  unfold on_list
  simp [hF]

/-- C2: with no identity filter, every ITEM identity and every GROUP identity
present in the lookup tables but absent from the response's identity sets is
deleted (and gone from the tables), identities present in the response are
retained, and every node is processed; with a filter set, only nodes that are
GROUP-typed or in the filter are processed, only filtered identities can be
deleted, non-filtered table entries survive untouched, and no group is
deleted. -/
theorem on_list_spec (t : HandlerTables) (addItems updateItems : List ListNode) :
    ((∀ i, i ∈ t.items → i ∉ all_item_ids addItems updateItems →
        i ∈ (on_list t none addItems updateItems).deletedItems ∧
        i ∉ (on_list t none addItems updateItems).tables.items) ∧
     (∀ i, i ∈ all_item_ids addItems updateItems →
        i ∉ (on_list t none addItems updateItems).deletedItems) ∧
     (∀ i, i ∈ t.items → i ∈ all_item_ids addItems updateItems →
        i ∈ (on_list t none addItems updateItems).tables.items) ∧
     (∀ g, g ∈ t.groups → g ∉ all_group_ids addItems updateItems →
        g ∈ (on_list t none addItems updateItems).deletedGroups ∧
        g ∉ (on_list t none addItems updateItems).tables.groups) ∧
     (∀ g, g ∈ t.groups → g ∈ all_group_ids addItems updateItems →
        g ∈ (on_list t none addItems updateItems).tables.groups) ∧
     (on_list t none addItems updateItems).processed = addItems ++ updateItems) ∧
    (∀ F : List Int, F ≠ [] →
     ((on_list t (some F) addItems updateItems).processed =
        (addItems ++ updateItems).filter (fun n => n.type = .GROUP ∨ n.id ∈ F)) ∧
     (∀ i, i ∈ (on_list t (some F) addItems updateItems).deletedItems → i ∈ F) ∧
     (∀ i, i ∈ t.items → i ∉ F →
        i ∉ (on_list t (some F) addItems updateItems).deletedItems ∧
        i ∈ (on_list t (some F) addItems updateItems).tables.items) ∧
     (on_list t (some F) addItems updateItems).deletedGroups = ∅) := by
  constructor
  · rw [on_list_none_eq]
    refine ⟨?_, ?_, ?_, ?_, ?_, rfl⟩
    · intro i hi hni
      simp only [Finset.mem_filter]
      constructor
      · exact ⟨Finset.mem_union_left _ hi, hni⟩
      · intro hmem
        exact hni hmem.2
    · intro i hin
      simp only [Finset.mem_filter]
      intro hmem
      exact hmem.2 hin
    · intro i hi hin
      simp only [Finset.mem_filter]
      exact ⟨Finset.mem_union_left _ hi, hin⟩
    · intro g hg hng
      simp only [Finset.mem_filter]
      constructor
      · exact ⟨Finset.mem_union_left _ hg, hng⟩
      · intro hmem
        exact hng hmem.2
    · intro g hg hgn
      simp only [Finset.mem_filter]
      exact ⟨Finset.mem_union_left _ hg, hgn⟩
  · intro F hF
    rw [on_list_some_eq t F hF]
    refine ⟨?_, ?_, ?_, rfl⟩
    · rw [List.filter_append]
    · intro i hdel
      simp only [Finset.mem_inter, List.mem_toFinset, List.mem_filter] at hdel
      exact hdel.2.1
    · intro i hi hniF
      simp only [Finset.mem_inter, Finset.mem_sdiff, List.mem_toFinset, List.mem_filter]
      constructor
      · intro hmem
        exact hniF hmem.2.1
      · refine ⟨Finset.mem_union_left _ hi, ?_⟩
        intro hmem
        exact hniF hmem.1

/-- Witness for C2, the spec's own scenario: tables hold items `{1,2,3}` and
the response lists only `{1,3}` — with no filter, item `2` is deleted and
items `1`,`3` retained; with filter `{1}`, item `2` is left in place. -/
theorem on_list_witness :
    ((2 : Int) ∈ (on_list ⟨{1, 2, 3}, ∅⟩ none
        [⟨1, .SOLID⟩] [⟨3, .SOLID⟩]).deletedItems ∧
     (2 : Int) ∉ (on_list ⟨{1, 2, 3}, ∅⟩ none
        [⟨1, .SOLID⟩] [⟨3, .SOLID⟩]).tables.items) ∧
    ((1 : Int) ∈ (on_list ⟨{1, 2, 3}, ∅⟩ none
        [⟨1, .SOLID⟩] [⟨3, .SOLID⟩]).tables.items) ∧
    ((3 : Int) ∈ (on_list ⟨{1, 2, 3}, ∅⟩ none
        [⟨1, .SOLID⟩] [⟨3, .SOLID⟩]).tables.items) ∧
    ((2 : Int) ∉ (on_list ⟨{1, 2, 3}, ∅⟩ (some [1])
        [⟨1, .SOLID⟩] [⟨3, .SOLID⟩]).deletedItems ∧
     (2 : Int) ∈ (on_list ⟨{1, 2, 3}, ∅⟩ (some [1])
        [⟨1, .SOLID⟩] [⟨3, .SOLID⟩]).tables.items) := by
  refine ⟨?_, ?_, ?_, ?_⟩
  · exact ((on_list_spec ⟨{1, 2, 3}, ∅⟩ [⟨1, .SOLID⟩] [⟨3, .SOLID⟩]).1.1 2
      (by decide) (by decide))
  · exact ((on_list_spec ⟨{1, 2, 3}, ∅⟩ [⟨1, .SOLID⟩] [⟨3, .SOLID⟩]).1.2.2.1 1
      (by decide) (by decide))
  · exact ((on_list_spec ⟨{1, 2, 3}, ∅⟩ [⟨1, .SOLID⟩] [⟨3, .SOLID⟩]).1.2.2.1 3
      (by decide) (by decide))
  · exact (((on_list_spec ⟨{1, 2, 3}, ∅⟩ [⟨1, .SOLID⟩] [⟨3, .SOLID⟩]).2 [1]
      (by decide)).2.2.1 2 (by decide) (by decide))

/-! ## `SceneHandler.__replace_objects`, second pass (handler.py)

The second pass walks the transaction's nodes, re-parents each, and applies
the flag bits.  For mesh objects it writes `obj.hide_set(...)` /
`obj.hide_select` on the node's own object; for groups, however, the Python
code writes `group_collection.hide_viewport` / `group_collection.hide_select`,
where `group_collection` is the loop variable left over from the *first*
pass — i.e. the collection of the last GROUP node (with positive id) of the
transaction — not `obj`, the current node's collection.  The embedding
mirrors that faithfully.  Nodes are assumed resolvable (an unresolvable self
or parent only skips that node with a logged error). -/

structure TxnNode where
  id : Int
  parent_id : Int
  type : PlasticityType
  flags : Nat
deriving DecidableEq

def flagHidden (flags : Nat) : Bool := decide (Nat.land flags 1 ≠ 0)

def flagVisible (flags : Nat) : Bool := decide (Nat.land flags 2 ≠ 0)

def flagSelectable (flags : Nat) : Bool := decide (Nat.land flags 4 ≠ 0)

/-- The effective values the spec prescribes from a node's own flags. -/
def specHideValue (flags : Nat) : Bool := flagHidden flags || !flagVisible flags

def specHideSelectValue (flags : Nat) : Bool := !flagSelectable flags

/-- The Python local `group_collection` as left behind by the first pass:
the last GROUP node of the transaction with positive id. -/
def lastGroupId (objects : List TxnNode) : Option Int :=
  ((objects.filter (fun n => n.type = .GROUP ∧ n.id > 0)).getLast?).map (fun n => n.id)

structure VisState where
  objHide : Int → Bool
  objHideSelect : Int → Bool
  grpHideViewport : Int → Bool
  grpHideSelect : Int → Bool

def visInit : VisState := ⟨fun _ => false, fun _ => false, fun _ => false, fun _ => false⟩

def secondPassStep (staleGroup : Option Int) (s : VisState) (n : TxnNode) : VisState :=
  if n.id = 0 then s
  else if n.type = .GROUP then
    match staleGroup with
    | none => s
    | some g =>
      { s with
        grpHideViewport := fun i => if i = g then specHideValue n.flags else s.grpHideViewport i
        grpHideSelect := fun i => if i = g then specHideSelectValue n.flags else s.grpHideSelect i }
  else
    { s with
      objHide := fun i => if i = n.id then specHideValue n.flags else s.objHide i
      objHideSelect := fun i => if i = n.id then specHideSelectValue n.flags else s.objHideSelect i }

def replace_objects_second_pass (objects : List TxnNode) (s : VisState) : VisState :=
  objects.foldl (secondPassStep (lastGroupId objects)) s

/-- C3 (refuting the claim on the code as written): in a transaction with two
groups — group 1 with flags `1` (hidden, not visible, not selectable), group
2 with flags `2` (visible) — group 1's collection must, per the spec, end
hidden (`hidden OR NOT visible = true`) and unpickable, but the code leaves
it untouched (both `false`) because each group node's flags are written to
the stale `group_collection` variable, i.e. group 2's collection; a SOLID
node `3` in the same transaction does receive its own flag values. -/
theorem replace_objects_flags_bug :
    (replace_objects_second_pass
        [⟨1, 0, .GROUP, 1⟩, ⟨2, 0, .GROUP, 2⟩, ⟨3, 0, .SOLID, 1⟩]
        visInit).grpHideViewport 1 = false ∧
    (replace_objects_second_pass
        [⟨1, 0, .GROUP, 1⟩, ⟨2, 0, .GROUP, 2⟩, ⟨3, 0, .SOLID, 1⟩]
        visInit).grpHideSelect 1 = false ∧
    specHideValue 1 = true ∧
    specHideSelectValue 1 = true ∧
    (replace_objects_second_pass
        [⟨1, 0, .GROUP, 1⟩, ⟨2, 0, .GROUP, 2⟩, ⟨3, 0, .SOLID, 1⟩]
        visInit).grpHideViewport 2 = specHideValue 2 ∧
    (replace_objects_second_pass
        [⟨1, 0, .GROUP, 1⟩, ⟨2, 0, .GROUP, 2⟩, ⟨3, 0, .SOLID, 1⟩]
        visInit).objHide 3 = specHideValue 1 ∧
    (replace_objects_second_pass
        [⟨1, 0, .GROUP, 1⟩, ⟨2, 0, .GROUP, 2⟩, ⟨3, 0, .SOLID, 1⟩]
        visInit).objHideSelect 3 = specHideSelectValue 1 := by
  exact ⟨by decide, by decide, by decide, by decide, by decide, by decide, by decide⟩

/-! ## `operators._build_face_id_map` and helpers (operators.py)

A mesh is its polygon table (each polygon's `loop_start`/`loop_total`; the
polygon's `index` is its position) plus the number of loop/corner slots.
`groups` is the flat `[start, count, start, count, ...]` table and
`face_ids` the per-group identity list, both integer-valued. -/

structure MeshPoly where
  loop_start : Nat
  loop_total : Nat
deriving DecidableEq

structure Mesh where
  polygons : List MeshPoly
  loops : Nat
deriving DecidableEq

inductive GroupIndexMode where
  | faces
  | loops
deriving DecidableEq

/-- The `counts_total` / `max_end` accumulation of `_group_index_mode`
(a missing trailing count is read as `0`). -/
def groupStatsAux (ct me : Int) : List Int → Int × Int
  | [] => (ct, me)
  | [s] => (ct, if s > me then s else me)
  | s :: c :: rest => groupStatsAux (ct + c) (if s + c > me then s + c else me) rest

def group_index_mode (groups : List Int) (mesh : Mesh) : GroupIndexMode :=
  if groups = [] then .loops
  else
    let stats := groupStatsAux 0 0 groups
    if stats.2 ≤ (mesh.polygons.length : Int) then .faces
    else if stats.2 ≤ (mesh.loops : Int) then .loops
    else if stats.1 = (mesh.polygons.length : Int) then .faces
    else if stats.1 = (mesh.loops : Int) then .loops
    else .loops

/-- Stable insertion by start key (used to model Python's stable
`ranges.sort(key=start)`: an element is inserted before the first element
whose start is not smaller, so elements with equal starts keep their
original relative order). -/
def insertRangeByStart (x : Int × Int × Int) :
    List (Int × Int × Int) → List (Int × Int × Int)
  | [] => [x]
  | y :: ys => if y.1 < x.1 then y :: insertRangeByStart x ys else x :: y :: ys

def sortRangesByStart (l : List (Int × Int × Int)) : List (Int × Int × Int) :=
  l.foldr insertRangeByStart []

/-- `_iter_group_ranges`: the `(start, count, face_id)` triples with positive
count, sorted by start (Python's stable sort). -/
def iter_group_ranges (groups face_ids : List Int) : List (Int × Int × Int) :=
  let groupCount := min (groups.length / 2) face_ids.length
  sortRangesByStart ((List.range groupCount).filterMap (fun i =>
    let start := groups.getD (2 * i) 0
    let count := groups.getD (2 * i + 1) 0
    let fid := face_ids.getD i 0
    if count ≤ 0 then none else some (start, count, fid)))

def face_id_coverage (m : List (Option Int)) : Nat :=
  (m.filter (fun v => v.isSome)).length

/-- `_build_face_id_map_faces`: write each range onto the polygon array,
first write per polygon wins (clipping at the array bound). -/
def build_face_id_map_faces (ranges : List (Int × Int × Int)) (mesh : Mesh) :
    List (Option Int) :=
  ranges.foldl (fun arr r =>
    if r.1 < 0 ∨ r.2.1 ≤ 0 then arr
    else arr.mapIdx (fun i v =>
      if r.1 ≤ (i : Int) ∧ (i : Int) < r.1 + r.2.1 then
        (if v = none then some r.2.2 else v)
      else v))
    (List.replicate mesh.polygons.length none)

/-- The running majority vote of `_build_face_id_map_loops`: counts per
identity, with the current best replaced only when a count strictly exceeds
it (so earlier identities win ties). -/
def majorityVoteStep (st : (Int → Nat) × Option Int × Nat) (v : Option Int) :
    (Int → Nat) × Option Int × Nat :=
  match v with
  | none => st
  | some fid =>
    let c := st.1 fid + 1
    if c > st.2.2 then ((fun x => if x = fid then c else st.1 x), some fid, c)
    else ((fun x => if x = fid then c else st.1 x), st.2.1, st.2.2)

def majorityVote (vals : List (Option Int)) : Option Int :=
  (vals.foldl majorityVoteStep ((fun _ => 0), none, 0)).2.1

/-- `_build_face_id_map_loops`: write the ranges onto the loop array (first
write per slot wins), then resolve each polygon by majority vote over its
corners' identities. -/
def build_face_id_map_loops (ranges : List (Int × Int × Int)) (mesh : Mesh) :
    List (Option Int) :=
  let loopIds := ranges.foldl (fun arr r =>
    if r.1 < 0 ∨ r.2.1 ≤ 0 then arr
    else arr.mapIdx (fun i v =>
      if r.1 ≤ (i : Int) ∧ (i : Int) < r.1 + r.2.1 then
        (if v = none then some r.2.2 else v)
      else v))
    (List.replicate mesh.loops none)
  mesh.polygons.map (fun p =>
    majorityVote ((List.range p.loop_total).map (fun j => loopIds.getD (p.loop_start + j) none)))

def build_face_id_map (groups face_ids : List Int) (mesh : Mesh) : List (Option Int) :=
  if groups = [] ∨ face_ids = [] ∨ mesh.polygons.length = 0 then
    List.replicate mesh.polygons.length none
  else
    let ranges := iter_group_ranges groups face_ids
    if ranges = [] then List.replicate mesh.polygons.length none
    else
      let faceMap := build_face_id_map_faces ranges mesh
      let loopMap := build_face_id_map_loops ranges mesh
      match group_index_mode groups mesh with
      | .faces =>
        if face_id_coverage loopMap > face_id_coverage faceMap then loopMap else faceMap
      | .loops =>
        if face_id_coverage faceMap > face_id_coverage loopMap then faceMap else loopMap

lemma coverage_replicate_none (n : Nat) :
    face_id_coverage (List.replicate n (none : Option Int)) = 0 := by
  induction n with
  | zero => rfl
  | succ k ih => simp [face_id_coverage, List.replicate_succ, List.filter]

lemma iter_group_ranges_nil_left (face_ids : List Int) :
    iter_group_ranges [] face_ids = [] := by
  simp [iter_group_ranges, sortRangesByStart]

lemma iter_group_ranges_nil_right (groups : List Int) :
    iter_group_ranges groups [] = [] := by
  simp [iter_group_ranges, sortRangesByStart]

lemma majorityVote_aux_none (vals : List (Option Int)) :
    ∀ cnt : Int → Nat, (∀ v ∈ vals, v = none) →
      (vals.foldl majorityVoteStep (cnt, none, 0)).2.1 = none := by
  induction vals with
  | nil => intro cnt _; rfl
  | cons v vs ih =>
    intro cnt h
    have hv : v = none := h v (List.mem_cons_self v vs)
    rw [List.foldl_cons, hv]
    exact ih cnt (fun w hw => h w (List.mem_cons_of_mem v hw))

lemma majorityVote_all_none (vals : List (Option Int)) (h : ∀ v ∈ vals, v = none) :
    majorityVote vals = none :=
  majorityVote_aux_none vals _ h

lemma getD_replicate_none (n i : Nat) :
    (List.replicate n (none : Option Int)).getD i none = none := by
  rw [List.getD_eq_getElem?_getD]
  cases h : (List.replicate n (none : Option Int))[i]? with
  | none => rfl
  | some v =>
    have := List.getElem?_mem h
    rw [List.eq_of_mem_replicate this] at h ⊢
    rfl

lemma coverage_faces_nil_ranges (mesh : Mesh) :
    face_id_coverage (build_face_id_map_faces [] mesh) = 0 := by
  unfold build_face_id_map_faces
  rw [List.foldl_nil]
  exact coverage_replicate_none _

lemma coverage_loops_nil_ranges (mesh : Mesh) :
    face_id_coverage (build_face_id_map_loops [] mesh) = 0 := by
  unfold build_face_id_map_loops
  rw [List.foldl_nil]
  unfold face_id_coverage
  rw [List.length_eq_zero, List.filter_eq_nil_iff]
  intro a ha
  rcases List.mem_map.mp ha with ⟨p, _, rfl⟩
  rw [majorityVote_all_none]
  · simp
  · intro v hv
    rcases List.mem_map.mp hv with ⟨j, _, rfl⟩
    exact getD_replicate_none _ _

lemma faces_write_foldl_nil (ranges : List (Int × Int × Int)) :
    ranges.foldl (fun arr r =>
      if r.1 < 0 ∨ r.2.1 ≤ 0 then arr
      else arr.mapIdx (fun i v =>
        if r.1 ≤ (i : Int) ∧ (i : Int) < r.1 + r.2.1 then
          (if v = none then some r.2.2 else v)
        else v)) ([] : List (Option Int)) = [] := by
  induction ranges with
  | nil => rfl
  | cons r rs ih =>
    rw [List.foldl_cons]
    split
    · exact ih
    · simpa using ih

lemma coverage_faces_polys_nil (ranges : List (Int × Int × Int)) (mesh : Mesh)
    (h : mesh.polygons.length = 0) :
    face_id_coverage (build_face_id_map_faces ranges mesh) = 0 := by
  unfold build_face_id_map_faces
  rw [h, List.replicate_zero, faces_write_foldl_nil]
  rfl

lemma coverage_loops_polys_nil (ranges : List (Int × Int × Int)) (mesh : Mesh)
    (h : mesh.polygons.length = 0) :
    face_id_coverage (build_face_id_map_loops ranges mesh) = 0 := by
  unfold build_face_id_map_loops
  rw [List.length_eq_zero.mp h]
  rfl

lemma build_face_id_map_eq_max (groups face_ids : List Int) (mesh : Mesh)
    (hne : face_id_coverage (build_face_id_map_faces (iter_group_ranges groups face_ids) mesh) ≠
      face_id_coverage (build_face_id_map_loops (iter_group_ranges groups face_ids) mesh)) :
    build_face_id_map groups face_ids mesh =
      (if face_id_coverage (build_face_id_map_faces (iter_group_ranges groups face_ids) mesh) >
          face_id_coverage (build_face_id_map_loops (iter_group_ranges groups face_ids) mesh)
       then build_face_id_map_faces (iter_group_ranges groups face_ids) mesh
       else build_face_id_map_loops (iter_group_ranges groups face_ids) mesh) := by
  have hboth : ∀ r : List (Int × Int × Int), r = iter_group_ranges groups face_ids →
      r = [] → False := by
    intro r hr hrnil
    apply hne
    rw [← hr, hrnil, coverage_faces_nil_ranges, coverage_loops_nil_ranges]
  have hpoly : ¬mesh.polygons.length = 0 := by
    intro h0
    apply hne
    rw [coverage_faces_polys_nil _ _ h0, coverage_loops_polys_nil _ _ h0]
  have hcond : ¬(groups = [] ∨ face_ids = [] ∨ mesh.polygons.length = 0) := by
    rintro (h | h | h)
    · exact hboth _ rfl (by rw [h]; exact iter_group_ranges_nil_left _)
    · exact hboth _ rfl (by rw [h]; exact iter_group_ranges_nil_right _)
    · exact hpoly h
  have hrne : ¬iter_group_ranges groups face_ids = [] := fun h => hboth _ rfl h
  unfold build_face_id_map
  rw [if_neg hcond, if_neg hrne]
  dsimp only
  cases hmode : group_index_mode groups mesh with
  | faces =>
    dsimp only
    by_cases hgt : face_id_coverage (build_face_id_map_faces (iter_group_ranges groups face_ids) mesh) >
        face_id_coverage (build_face_id_map_loops (iter_group_ranges groups face_ids) mesh)
    · rw [if_neg (by omega), if_pos hgt]
    · rw [if_pos (by omega), if_neg hgt]
  | loops =>
    dsimp only

/-- C1: `_build_face_id_map` returns whichever of the polygon-basis and
loop-basis (majority-vote) candidate maps has strictly greater coverage
whenever the coverages differ; in particular, when exactly one interpretation
achieves full coverage (one candidate assigns an identity to every polygon
and the other does not), the fully-covering candidate is returned. -/
theorem build_face_id_map_spec (groups face_ids : List Int) (mesh : Mesh) :
    (face_id_coverage (build_face_id_map_faces (iter_group_ranges groups face_ids) mesh) ≠
        face_id_coverage (build_face_id_map_loops (iter_group_ranges groups face_ids) mesh) →
      build_face_id_map groups face_ids mesh =
        (if face_id_coverage (build_face_id_map_faces (iter_group_ranges groups face_ids) mesh) >
            face_id_coverage (build_face_id_map_loops (iter_group_ranges groups face_ids) mesh)
         then build_face_id_map_faces (iter_group_ranges groups face_ids) mesh
         else build_face_id_map_loops (iter_group_ranges groups face_ids) mesh)) ∧
    (face_id_coverage (build_face_id_map_faces (iter_group_ranges groups face_ids) mesh) =
        mesh.polygons.length →
      face_id_coverage (build_face_id_map_loops (iter_group_ranges groups face_ids) mesh) <
        mesh.polygons.length →
      build_face_id_map groups face_ids mesh =
        build_face_id_map_faces (iter_group_ranges groups face_ids) mesh) ∧
    (face_id_coverage (build_face_id_map_loops (iter_group_ranges groups face_ids) mesh) =
        mesh.polygons.length →
      face_id_coverage (build_face_id_map_faces (iter_group_ranges groups face_ids) mesh) <
        mesh.polygons.length →
      build_face_id_map groups face_ids mesh =
        build_face_id_map_loops (iter_group_ranges groups face_ids) mesh) := by
  refine ⟨build_face_id_map_eq_max groups face_ids mesh, ?_, ?_⟩
  · intro hF hL
    rw [build_face_id_map_eq_max groups face_ids mesh (by omega), if_pos (by omega)]
  · intro hL hF
    rw [build_face_id_map_eq_max groups face_ids mesh (by omega), if_neg (by omega)]

/-- Witness for C1 on a mesh of three triangles (9 corners): the table
`[0,3] / [7]` is fully covering only under the polygon interpretation and is
returned as the polygon-basis map; the table `[1,8] / [7]` is fully covering
only under the loop interpretation and is returned as the loop-basis map. -/
theorem build_face_id_map_witness :
    build_face_id_map [0, 3] [7] ⟨[⟨0, 3⟩, ⟨3, 3⟩, ⟨6, 3⟩], 9⟩ =
      build_face_id_map_faces (iter_group_ranges [0, 3] [7]) ⟨[⟨0, 3⟩, ⟨3, 3⟩, ⟨6, 3⟩], 9⟩ ∧
    face_id_coverage (build_face_id_map_faces (iter_group_ranges [0, 3] [7])
      ⟨[⟨0, 3⟩, ⟨3, 3⟩, ⟨6, 3⟩], 9⟩) = 3 ∧
    build_face_id_map [1, 8] [7] ⟨[⟨0, 3⟩, ⟨3, 3⟩, ⟨6, 3⟩], 9⟩ =
      build_face_id_map_loops (iter_group_ranges [1, 8] [7]) ⟨[⟨0, 3⟩, ⟨3, 3⟩, ⟨6, 3⟩], 9⟩ ∧
    face_id_coverage (build_face_id_map_loops (iter_group_ranges [1, 8] [7])
      ⟨[⟨0, 3⟩, ⟨3, 3⟩, ⟨6, 3⟩], 9⟩) = 3 := by
  refine ⟨?_, by decide, ?_, by decide⟩
  · exact (build_face_id_map_spec [0, 3] [7] ⟨[⟨0, 3⟩, ⟨3, 3⟩, ⟨6, 3⟩], 9⟩).2.1
      (by decide) (by decide)
  · exact (build_face_id_map_spec [1, 8] [7] ⟨[⟨0, 3⟩, ⟨3, 3⟩, ⟨6, 3⟩], 9⟩).2.2
      (by decide) (by decide)

/-! ## `handler._compress_loop_face_ids` (handler.py)

Per-corner face identities are integers, with any negative entry (or `None`,
which the code treats identically) the absent marker; `_build_loop_face_ids`
initializes its array with `-1`.  The compressor walks the list with the
current open run `(current_id, start, count)` and emits `[start, count]` /
`current_id` whenever the run closes.  `decompress` is the claim's
re-expansion: an array of the original length initialized to the `-1`
marker, with `face_ids[k]` written into positions
`groups[2k] .. groups[2k] + groups[2k+1] - 1`. -/

def compressAux : List Int → Nat → Option (Int × Nat × Nat) → List Nat × List Int
  | [], _, none => ([], [])
  | [], _, some (id, s, c) => ([s, c], [id])
  | x :: xs, i, none =>
    if x < 0 then compressAux xs (i + 1) none
    else compressAux xs (i + 1) (some (x, i, 1))
  | x :: xs, i, some (id, s, c) =>
    if x < 0 then
      let rest := compressAux xs (i + 1) none
      (s :: c :: rest.1, id :: rest.2)
    else if x = id then compressAux xs (i + 1) (some (id, s, c + 1))
    else
      let rest := compressAux xs (i + 1) (some (x, i, 1))
      (s :: c :: rest.1, id :: rest.2)

def compress_loop_face_ids (l : List Int) : List Nat × List Int :=
  compressAux l 0 none

def writeRun : List Int → Nat → Nat → Int → List Int
  | L, _, 0, _ => L
  | L, s, c + 1, v => writeRun (L.set s v) (s + 1) c v

def writeRuns : List Nat → List Int → List Int → List Int
  | s :: c :: g, id :: f, L => writeRuns g f (writeRun L s c id)
  | _, _, L => L

def decompress (gf : List Nat × List Int) (n : Nat) : List Int :=
  writeRuns gf.1 gf.2 (List.replicate n (-1))

/-- Pointwise overlay: non-negative entries of the first list, the second
list's entry where the first is negative; entries of the second list beyond
the first list's length are kept. -/
def overlay : List Int → List Int → List Int
  | [], ys => ys
  | _ :: _, [] => []
  | x :: xs, y :: ys => (if x < 0 then y else x) :: overlay xs ys

lemma writeRun_eq (c : Nat) : ∀ (L : List Int) (s : Nat) (v : Int), s + c ≤ L.length →
    writeRun L s c v = (L.take s ++ List.replicate c v) ++ L.drop (s + c) := by
  induction c with
  | zero =>
    intro L s v _
    simp [writeRun]
  | succ c ih =>
    intro L s v h
    have hs : s < L.length := by omega
    have hlt : (L.take s).length = s := by
      rw [List.length_take]
      omega
    have hA : (L.set s v).take (s + 1) = L.take s ++ [v] := by
      rw [List.set_eq_take_append_cons_drop, if_pos hs,
        List.take_append_eq_append_take,
        List.take_of_length_le (show (L.take s).length ≤ s + 1 by omega),
        hlt, show s + 1 - s = 1 by omega]
      rfl
    have hB : (L.set s v).drop (s + 1 + c) = L.drop (s + 1 + c) := by
      rw [List.set_eq_take_append_cons_drop, if_pos hs,
        List.drop_append_eq_append_drop,
        List.drop_eq_nil_of_le (show (L.take s).length ≤ s + 1 + c by omega),
        hlt, show s + 1 + c - s = c + 1 by omega,
        List.drop_succ_cons, List.drop_drop, List.nil_append]
    rw [writeRun, ih (L.set s v) (s + 1) v (by rw [List.length_set]; omega), hA, hB,
      show s + 1 + c = s + (c + 1) by omega]
    simp [List.replicate_succ, List.append_assoc]

lemma take_append_add (A C : List Int) (k : Nat) :
    (A ++ C).take (A.length + k) = A ++ C.take k := by
  rw [List.take_append_eq_append_take, List.take_of_length_le (by omega),
    Nat.add_sub_cancel_left]

lemma drop_append_add (A C : List Int) (k : Nat) :
    (A ++ C).drop (A.length + k) = C.drop k := by
  rw [List.drop_append_eq_append_drop, List.drop_eq_nil_of_le (by omega),
    Nat.add_sub_cancel_left, List.nil_append]

/-- Invariant of the compressor: replaying the emitted runs over any base
array that extends the processed prefix reproduces the prefix described by
the open state followed by the overlay of the remaining entries. -/
lemma writeRuns_compressAux (xs : List Int) :
    ∀ (i : Nat) (st : Option (Int × Nat × Nat)) (L : List Int),
      L.length = i + xs.length →
      (∀ id s c, st = some (id, s, c) → s + c = i) →
      writeRuns (compressAux xs i st).1 (compressAux xs i st).2 L =
        (match st with
         | none => L.take i
         | some (id, s, c) => L.take s ++ List.replicate c id) ++ overlay xs (L.drop i) := by
  induction xs with
  | nil =>
    intro i st L hlen hst
    have hlen' : L.length = i := by simpa using hlen
    match st with
    | none =>
      simp only [compressAux, writeRuns, overlay]
      exact (List.take_append_drop i L).symm
    | some (id, s, c) =>
      have hsc : s + c = i := hst id s c rfl
      simp only [compressAux, writeRuns, overlay]
      rw [writeRun_eq c L s id (by omega), hsc]
  | cons x xs ih =>
    intro i st L hlen hst
    have hxs : L.length = (i + 1) + xs.length := by
      rw [hlen, List.length_cons]
      omega
    have hiL : i < L.length := by
      rw [hlen, List.length_cons]
      omega
    have hdropL : L.drop i = L[i] :: L.drop (i + 1) := List.drop_eq_getElem_cons hiL
    match st with
    | none =>
      by_cases hx : x < 0
      · simp only [compressAux, if_pos hx]
        rw [ih (i + 1) none L hxs (by intro id s c h; cases h)]
        rw [hdropL]
        simp only [overlay, if_pos hx]
        have htk : L.take (i + 1) = L.take i ++ [L[i]] :=
          (List.take_concat_get' L i hiL).symm
        rw [List.append_cons, ← htk]
      · simp only [compressAux, if_neg hx]
        rw [ih (i + 1) (some (x, i, 1)) L hxs (by intro id s c h; simp at h; omega)]
        rw [hdropL]
        simp only [overlay, if_neg hx]
        simp [List.append_assoc]
    | some (id, s, c) =>
      have hsc : s + c = i := hst id s c rfl
      have hpre : (L.take s ++ List.replicate c id).length = i := by
        rw [List.length_append, List.length_take, List.length_replicate]
        omega
      have hL' : writeRun L s c id = (L.take s ++ List.replicate c id) ++ L.drop i := by
        rw [writeRun_eq c L s id (by omega), hsc]
      have hlenL' : ((L.take s ++ List.replicate c id) ++ L.drop i).length =
          (i + 1) + xs.length := by
        rw [List.length_append, hpre, List.length_drop, hlen, List.length_cons]
        omega
      have htk1 : ((L.take s ++ List.replicate c id) ++ L.drop i).take (i + 1) =
          (L.take s ++ List.replicate c id) ++ [L[i]] := by
        have h0 := take_append_add (L.take s ++ List.replicate c id) (L.drop i) 1
        rw [hpre] at h0
        rw [h0, hdropL]
        rfl
      have hdr1 : ((L.take s ++ List.replicate c id) ++ L.drop i).drop (i + 1) =
          L.drop (i + 1) := by
        have h0 := drop_append_add (L.take s ++ List.replicate c id) (L.drop i) 1
        rw [hpre] at h0
        rw [h0, hdropL]
        rfl
      by_cases hx : x < 0
      · simp only [compressAux, if_pos hx, writeRuns]
        rw [hL', ih (i + 1) none ((L.take s ++ List.replicate c id) ++ L.drop i) hlenL'
          (by intro id' s' c' h; cases h)]
        rw [htk1, hdr1, hdropL]
        simp only [overlay, if_pos hx]
        simp [List.append_assoc]
      · by_cases hxid : x = id
        · simp only [compressAux, if_neg hx, if_pos hxid]
          rw [ih (i + 1) (some (id, s, c + 1)) L hxs
            (by intro id' s' c' h; simp at h; omega)]
          rw [hdropL]
          simp only [overlay, if_neg hx]
          subst hxid
          rw [List.replicate_succ']
          simp [List.append_assoc]
        · simp only [compressAux, if_neg hx, if_neg hxid, writeRuns]
          rw [hL', ih (i + 1) (some (x, i, 1)) ((L.take s ++ List.replicate c id) ++ L.drop i)
            hlenL' (by intro id' s' c' h; simp at h; omega)]
          dsimp only
          rw [List.take_left' hpre, hdr1, hdropL]
          simp only [overlay, if_neg hx]
          simp [List.append_assoc]

lemma overlay_replicate_marker (l : List Int) (h : ∀ x ∈ l, x < 0 → x = -1) :
    overlay l (List.replicate l.length (-1)) = l := by
  induction l with
  | nil => rfl
  | cons x xs ih =>
    rw [List.length_cons, List.replicate_succ]
    simp only [overlay]
    rw [ih (fun y hy => h y (List.mem_cons_of_mem x hy))]
    by_cases hx : x < 0
    · rw [if_pos hx, h x (List.mem_cons_self x xs) hx]
    · rw [if_neg hx]

/-- C10: compressing a per-corner face-identity list (non-negative entries,
with `-1` the absent marker) into the run-length `(groups, face_ids)` table
and re-expanding the table — writing `face_ids[k]` into positions
`groups[2k] .. groups[2k] + groups[2k+1] - 1` of an array of the original
length initialized to the marker — reproduces the original list exactly. -/
theorem compress_loop_face_ids_roundtrip (l : List Int)
    (h : ∀ x ∈ l, x < 0 → x = -1) :
    decompress (compress_loop_face_ids l) l.length = l := by
  unfold decompress compress_loop_face_ids
  rw [writeRuns_compressAux l 0 none (List.replicate l.length (-1))
    (by rw [List.length_replicate]; omega) (by intro id s c hcon; cases hcon)]
  rw [List.take_zero, List.drop_zero, List.nil_append]
  exact overlay_replicate_marker l h

/-- Witness for C10 on a concrete corner list with two adjacent runs of the
same identity separated by markers. -/
theorem compress_loop_face_ids_witness :
    decompress (compress_loop_face_ids [5, 5, -1, 7, 7, 7, -1, -1, 3, 7]) 10 =
      [5, 5, -1, 7, 7, 7, -1, -1, 3, 7] := by
  have := compress_loop_face_ids_roundtrip [5, 5, -1, 7, 7, 7, -1, -1, 3, 7] (by decide)
  simpa using this

end Plasticity
